import Mathlib

/-
Verification of the conversation session engine of the claude-chat terminal
client (src/chat/app.py, src/chat/web.py, src/chat/storage.py).  The Python
classes are shallowly embedded: the mutable attributes of ClaudeChat that the
session engine touches become a ChatState record, each method becomes a pure
state-transforming function, and the remote streaming call is an explicit
outcome parameter (list of streamed text chunks plus final usage, or an
error).  Python ints are Nat, Python float cost is modelled with exact
rationals (the arithmetic claims are stated over the same rationals), and the
two float expressions in the trim logic are modelled exactly as IEEE-754
doubles, as explained at their definitions.
-/

/-- Role tag of a conversation turn ("role" key of the dicts stored in
ClaudeChat.conversation). -/
inductive Role where
  | user
  | assistant
deriving DecidableEq, Repr

/-- One conversation turn: src/chat/app.py stores dicts
with keys "role" and "content". -/
structure Turn where
  role : Role
  content : String
deriving DecidableEq, Repr

/-- The session-engine state of ClaudeChat (src/chat/app.py __init__):
the ordered turn history, token/cost totals, the last reported input-token
count, the fixed context limit, the active model/persona/depth settings and
the one-shot voice flag. -/
structure ChatState where
  conversation : List Turn
  total_input_tokens : Nat
  total_output_tokens : Nat
  total_cost : Rat
  last_input_tokens : Nat
  context_limit : Nat
  model_name : String
  system_prompt : String
  max_tokens : Nat
  voice_mode : Bool
deriving Repr

/-- The fresh session state created by __init__ (src/chat/app.py:53-81):
empty history, zero totals, context limit 180000, default model Sonnet,
no persona, Standard depth 1024, voice flag off. -/
def initialState : ChatState :=
  { conversation := []
    total_input_tokens := 0
    total_output_tokens := 0
    total_cost := 0
    last_input_tokens := 0
    context_limit := 180000
    model_name := "Sonnet"
    system_prompt := ""
    max_tokens := 1024
    voice_mode := false }

/-- The PRICING table lookup with fallback,
`self.PRICING.get(self.model_name, {"input": 3.00, "output": 15.00})`
(src/chat/app.py:34-38 and 559).  Prices are dollars per million tokens;
0.80 is the exact rational 4/5. -/
def PRICING (model_name : String) : Rat × Rat :=
  if model_name = "Opus" then (15, 75)
  else if model_name = "Sonnet" then (3, 15)
  else if model_name = "Haiku" then ((4 : Rat) / 5, 4)
  else (3, 15)

/-- Incremental cost of one exchange:
`(input_tokens / 1_000_000) * prices["input"] + (output_tokens / 1_000_000) * prices["output"]`
(src/chat/app.py:560-561), in exact rational arithmetic. -/
def exchangeCost (model_name : String) (input_tokens output_tokens : Nat) : Rat :=
  (input_tokens : Rat) / 1000000 * (PRICING model_name).1
    + (output_tokens : Rat) / 1000000 * (PRICING model_name).2

/-- Numerator of the IEEE-754 double nearest to 0.7: the double is exactly
DOUBLE_07_NUM / 2^52 (0.7 itself is not representable). -/
def DOUBLE_07_NUM : Nat := 3152519739159347

/-- Smallest shift k with m < 2^(53+k): the amount by which the exact
product must be shifted so that its significand fits in 53 bits.  The search
bound 128 covers every m below 2^181, far beyond any list length. -/
def roundShift (m : Nat) : Nat :=
  (((List.range 128).find? fun k => decide (m < 2 ^ (53 + k))).getD 0)

/-- Faithful model of the Python expression `int(len(self.conversation) * 0.7)`
(src/chat/app.py:492): multiply n by the double nearest 0.7 (an exact integer
product over 2^52), round that product to 53 significant bits with
round-to-nearest, ties-to-even (the IEEE multiplication), then truncate
toward zero.  This differs from floor(0.7 * n) for infinitely many n
(e.g. n = 90 gives 62, not 63), so the rounding is modelled explicitly;
the model was checked against CPython for all n up to 3_000_000 and random
n up to 2^40. -/
def pyIntMul07 (n : Nat) : Nat :=
  let m := n * DOUBLE_07_NUM
  let s := roundShift m
  if s = 0 then m / 2 ^ 52
  else
    let q := m / 2 ^ s
    let r := m % 2 ^ s
    let half := 2 ^ (s - 1)
    let q2 := if half < r ∨ (r = half ∧ q % 2 = 1) then q + 1 else q
    q2 * 2 ^ s / 2 ^ 52

/-- The eviction loop of _trim_conversation (src/chat/app.py:490-502):
`while len(conversation) > target and len(conversation) > 2`, pop the two
oldest entries when they form a user-then-assistant pair, otherwise break.
Returns the remaining turns and the number of pairs removed (`trimmed`).
The target is computed once, before the loop, by the caller. -/
def trimLoop (target : Nat) : List Turn → List Turn × Nat
  | t1 :: t2 :: rest =>
    if target < (t1 :: t2 :: rest).length ∧ 2 < (t1 :: t2 :: rest).length
        ∧ t1.role = Role.user ∧ t2.role = Role.assistant then
      let p := trimLoop target rest
      (p.1, p.2 + 1)
    else (t1 :: t2 :: rest, 0)
  | l => (l, 0)

/-- ClaudeChat._trim_conversation (src/chat/app.py:485-508).  The guard
`self.last_input_tokens < self.context_limit * 0.85` is modelled as the exact
rational comparison 20 * last < 17 * limit: the only context limit of the program
is 180000 (set once in __init__, never reassigned), and the IEEE-754 double
product 180000 * 0.85 is exactly 153000, so on every reachable state the
float comparison in the source coincides with this rational comparison. -/
def trimConversation (st : ChatState) : ChatState :=
  if 20 * st.last_input_tokens < 17 * st.context_limit then st
  else
    { st with
      conversation := (trimLoop (pyIntMul07 st.conversation.length) st.conversation).1 }

/-- Outcome of the remote streaming call opened by send_message: either an
error (anything raised inside the try block by the stream), or the ordered
streamed text chunks together with the final usage record
(input_tokens, output_tokens). -/
inductive RemoteOutcome where
  | failure (errMsg : String)
  | success (chunks : List String) (input_tokens output_tokens : Nat)
deriving Repr

/-- ClaudeChat.send_message (src/chat/app.py:510-574): trim, append the user
turn, run the remote exchange.  On success: concatenate the streamed chunks,
set last_input_tokens, accumulate token totals, add the two cost increments,
append the assistant turn, and consume the one-shot voice flag.  On failure:
pop the just-appended user turn and reset the voice flag.  The api_msg
override only affects the outbound request, never the stored state. -/
def sendMessage (st : ChatState) (userMsg : String) (apiMsg : Option String)
    (remote : RemoteOutcome) : ChatState :=
  let st1 := trimConversation st
  let st2 := { st1 with conversation := st1.conversation.concat ⟨Role.user, userMsg⟩ }
  match remote with
  | RemoteOutcome.failure _ =>
    { st2 with conversation := st2.conversation.dropLast, voice_mode := false }
  | RemoteOutcome.success chunks input_tokens output_tokens =>
    let full_response := String.join chunks
    let prices := PRICING st2.model_name
    { st2 with
      last_input_tokens := input_tokens
      total_input_tokens := st2.total_input_tokens + input_tokens
      total_output_tokens := st2.total_output_tokens + output_tokens
      total_cost := st2.total_cost + (input_tokens : Rat) / 1000000 * prices.1
        + (output_tokens : Rat) / 1000000 * prices.2
      conversation := st2.conversation.concat ⟨Role.assistant, full_response⟩
      voice_mode := false }

/-- ClaudeChat.clear_conversation (src/chat/app.py:474-481): resets only the
turn history; every other attribute is untouched. -/
def clearConversation (st : ChatState) : ChatState :=
  { st with conversation := [] }

/-- The parsed JSON object of a saved session file as read by
StorageMixin.load_conversation (src/chat/storage.py:137-150): every field the
loader reads with .get is optional; a missing field takes the per-field
default of the loader. -/
structure SaveData where
  conversation : Option (List Turn)
  system_prompt : Option String
  total_input_tokens : Option Nat
  total_output_tokens : Option Nat
  total_cost : Option Rat
  last_input_tokens : Option Nat
  model : Option String
deriving Repr

/-- The field-restoring tail of StorageMixin.load_conversation
(src/chat/storage.py:137-150): each ledger field is replaced by the saved
value or its default (empty history, empty persona, zero totals); the model
is restored only when the saved name matches a known model. -/
def loadConversation (st : ChatState) (data : SaveData) : ChatState :=
  let st1 :=
    { st with
      conversation := data.conversation.getD []
      system_prompt := data.system_prompt.getD ""
      total_input_tokens := data.total_input_tokens.getD 0
      total_output_tokens := data.total_output_tokens.getD 0
      total_cost := data.total_cost.getD 0
      last_input_tokens := data.last_input_tokens.getD 0 }
  let saved := (data.model).getD ""
  if saved = "Opus" ∨ saved = "Sonnet" ∨ saved = "Haiku" then
    { st1 with model_name := saved }
  else st1

/-- The file-context composition of ClaudeChat.handle_input
(src/chat/app.py:663-664), reached when @file references resolved to a
non-null context: the outbound message is
file_context, then a newline-dash separator, then clean_msg or the
placeholder Explain this code.
and the stored message is `clean_msg or user_msg` (Python `or`: an empty
string is falsy).  Returns (storedMessage, requestMessage);
clean_msg is the raw input with the @file references removed, produced by
the external _extract_file_refs collaborator. -/
def handleFileInput (userMsg cleanMsg fileContext : String) : String × String :=
  let placeholder := if cleanMsg = "" then "Explain this code." else cleanMsg
  let augmented := fileContext ++ "\n\n---\n\n" ++ placeholder
  let stored := if cleanMsg = "" then userMsg else cleanMsg
  (stored, augmented)

/-- The apostrophe character, written by code point. -/
def apostropheChar : Char := Char.ofNat 39

/-- SEARCH_TRIGGERS (src/chat/web.py:10-15), in source order: the fixed list
of phrases that trigger a web search. -/
def SEARCH_TRIGGERS : List String :=
  ["search for", "search about", "look up", "google",
   "find online", "what" ++ apostropheChar.toString ++ "s the latest",
   "latest news", "current price", "weather in",
   "search the web", "look online", "web search"]

/-- Python str.lower, modelled for ASCII text (Char.toLower lowercases
exactly the ASCII range; every trigger phrase is ASCII). -/
def pyLower (s : String) : String := String.mk (s.data.map Char.toLower)

/-- Python substring membership `needle in hay` on character lists: true iff
needle occurs contiguously in hay (an empty needle always occurs). -/
def occursIn (needle : List Char) : List Char → Bool
  | [] => needle.isEmpty
  | c :: rest => needle.isPrefixOf (c :: rest) || occursIn needle rest

/-- WebMixin._has_search_intent (src/chat/web.py:25-28):
`any(trigger in message.lower() for trigger in SEARCH_TRIGGERS)`. -/
def hasSearchIntent (message : String) : Bool :=
  SEARCH_TRIGGERS.any fun t => occursIn t.data (pyLower message).data

/-- Python str.index for a substring: position of the first occurrence of
needle in hay, or none when absent. -/
def findSub (needle : List Char) : List Char → Option Nat
  | [] => if needle.isEmpty then some 0 else none
  | c :: rest =>
    if needle.isPrefixOf (c :: rest) then some 0
    else (findSub needle rest).map (· + 1)

/-- The whitespace characters removed by Python str.strip() (ASCII part). -/
def pyWhitespace : List Char := [' ', '\t', '\n', '\r', '\x0b', '\x0c']

/-- Python str.strip(chars): remove from both ends every leading/trailing
character belonging to the set. -/
def stripSet (cs : List Char) (l : List Char) : List Char :=
  ((l.dropWhile fun c => cs.contains c).reverse.dropWhile fun c => cs.contains c).reverse

/-- The query clean-up of _extract_query (src/chat/web.py:37):
`.strip().strip(chr(34)).strip(chr(39))` — whitespace, then double quotes,
then single quotes, each from both ends. -/
def stripQuery (l : List Char) : List Char :=
  stripSet [apostropheChar] (stripSet ['"'] (stripSet pyWhitespace l))

/-- The trigger loop of WebMixin._extract_query (src/chat/web.py:30-41):
for each trigger in list order, if it occurs in the lowercased message, take
the original-case text after its first occurrence, strip it; return it when
non-empty, otherwise keep scanning; fall back to the whole message. -/
def extractQueryAux (message msgLower : List Char) : List String → String
  | [] => String.mk message
  | t :: ts =>
    match findSub t.data msgLower with
    | none => extractQueryAux message msgLower ts
    | some i =>
      let q := stripQuery (message.drop (i + t.data.length))
      if q.isEmpty then extractQueryAux message msgLower ts
      else String.mk q

/-- WebMixin._extract_query (src/chat/web.py:30-41). -/
def extractQuery (message : String) : String :=
  extractQueryAux message.data (pyLower message).data SEARCH_TRIGGERS

/-- The condition under which one iteration of the _extract_query trigger
loop contributes nothing and the scan moves on to the next trigger
(src/chat/web.py:33-39): the trigger does not occur in the lowered message,
or the text after its first occurrence strips to the empty string (the
`if query:` test fails).  Stated over the embedded findSub/stripQuery so it
is decidable at concrete inputs. -/
def triggerSkipped (message msgLower : List Char) (t : String) : Bool :=
  match findSub t.data msgLower with
  | none => true
  | some j => (stripQuery (message.drop (j + t.data.length))).isEmpty

/-- A two-turn session sitting exactly at the trim threshold
(last_input_tokens = 153000 = 0.85 * 180000). -/
def atThresholdTwoTurnState : ChatState :=
  { initialState with
    conversation := [⟨Role.user, "hi"⟩, ⟨Role.assistant, "hello"⟩]
    last_input_tokens := 153000 }

/-- A below-threshold four-turn session (fresh last_input_tokens = 0). -/
def belowThresholdState : ChatState :=
  { initialState with
    conversation := [⟨Role.user, "q1"⟩, ⟨Role.assistant, "r1"⟩,
      ⟨Role.user, "q2"⟩, ⟨Role.assistant, "r2"⟩] }

/-- A five-turn (odd-length) session at the trim threshold: the user turn of
an in-flight exchange follows two complete pairs. -/
def oddLengthTrimState : ChatState :=
  { initialState with
    conversation := [⟨Role.user, "u1"⟩, ⟨Role.assistant, "a1"⟩,
      ⟨Role.user, "u2"⟩, ⟨Role.assistant, "a2"⟩, ⟨Role.user, "u3"⟩]
    last_input_tokens := 153000 }

/-- A four-turn history whose oldest entry is an assistant turn (malformed
front pair). -/
def malformedFrontList : List Turn :=
  [⟨Role.assistant, "a"⟩, ⟨Role.user, "u"⟩,
   ⟨Role.user, "u2"⟩, ⟨Role.assistant, "a2"⟩]

/-- A session that has already accumulated five dollars of cost. -/
def richSessionState : ChatState := { initialState with total_cost := 5 }

/-- A saved session file recording only one dollar of total cost. -/
def cheapSaveData : SaveData :=
  { conversation := none
    system_prompt := none
    total_input_tokens := none
    total_output_tokens := none
    total_cost := some 1
    last_input_tokens := none
    model := none }

/-- Well-formedness of the two oldest turns for the eviction loop: a
user-then-assistant pair at the front (src/chat/app.py:495-497). -/
def headIsPair : List Turn → Bool
  | t1 :: t2 :: _ => decide (t1.role = Role.user) && decide (t2.role = Role.assistant)
  | _ => false

/-- The eviction loop only ever drops whole (user, assistant) pairs from the
front: its result is the input with twice the removed-pair count dropped. -/
theorem trimLoop_fst_eq_drop (target : Nat) :
    ∀ l : List Turn, (trimLoop target l).1 = l.drop (2 * (trimLoop target l).2)
  | [] => by simp [trimLoop]
  | [t] => by simp [trimLoop]
  | t1 :: t2 :: rest => by
    have ih := trimLoop_fst_eq_drop target rest
    simp only [trimLoop]
    split
    · have h2 : 2 * ((trimLoop target rest).2 + 1)
          = 2 * (trimLoop target rest).2 + 1 + 1 := by omega
      simpa [h2] using ih
    · simp

/-- The loop never removes more turns than the list holds. -/
theorem trimLoop_two_mul_snd_le (target : Nat) :
    ∀ l : List Turn, 2 * (trimLoop target l).2 ≤ l.length
  | [] => by simp [trimLoop]
  | [t] => by simp [trimLoop]
  | t1 :: t2 :: rest => by
    have ih := trimLoop_two_mul_snd_le target rest
    simp only [trimLoop]
    split
    · simp only [List.length_cons]
      omega
    · simp

/-- The loop leaves the list untouched as soon as its guard fails or the two
oldest entries are not a user-then-assistant pair. -/
theorem trimLoop_stop (target : Nat) (l : List Turn)
    (h : ¬ (target < l.length ∧ 2 < l.length ∧ headIsPair l = true)) :
    trimLoop target l = (l, 0) := by
  match l with
  | [] => simp [trimLoop]
  | [t] => simp [trimLoop]
  | t1 :: t2 :: rest =>
    simp only [headIsPair, Bool.and_eq_true, decide_eq_true_eq] at h
    simp only [trimLoop]
    rw [if_neg]
    intro hc
    exact h ⟨hc.1, hc.2.1, hc.2.2⟩

/-- When the guard holds and the two oldest entries are a proper pair, the
loop removes that pair and continues. -/
theorem trimLoop_go (target : Nat) (t1 t2 : Turn) (rest : List Turn)
    (htarget : target < rest.length + 2) (hrest : 0 < rest.length)
    (hu : t1.role = Role.user) (ha : t2.role = Role.assistant) :
    trimLoop target (t1 :: t2 :: rest)
      = ((trimLoop target rest).1, (trimLoop target rest).2 + 1) := by
  simp only [trimLoop]
  rw [if_pos]
  exact ⟨by simpa using htarget, by simpa using hrest, hu, ha⟩

/-- The eviction loop actually removes something iff the precomputed target
and the minimum-size guard allow it and the two oldest turns form a proper
pair. -/
theorem trimLoop_change_iff (target : Nat) (l : List Turn) :
    (trimLoop target l).1 ≠ l ↔
      (target < l.length ∧ 2 < l.length ∧ headIsPair l = true) := by
  constructor
  · intro hne
    by_contra hrc
    exact hne (by rw [trimLoop_stop target l hrc])
  · rintro ⟨h1, h2, h3⟩
    match l, h1, h2, h3 with
    | t1 :: t2 :: rest, h1, h2, h3 =>
      simp only [headIsPair, Bool.and_eq_true, decide_eq_true_eq] at h3
      have hrest : 0 < rest.length := by
        simp only [List.length_cons] at h2
        omega
      rw [trimLoop_go target t1 t2 rest (by simpa using h1) hrest h3.1 h3.2]
      intro heq
      have hlen := congrArg List.length heq
      rw [trimLoop_fst_eq_drop] at hlen
      have hle := trimLoop_two_mul_snd_le target rest
      simp only [List.length_drop, List.length_cons] at hlen
      omega

/-- The trim step never touches the token totals, the cost, the last
input-token count, the limit, or the model/persona/depth/voice settings. -/
theorem trimConversation_ledger (st : ChatState) :
    (trimConversation st).total_input_tokens = st.total_input_tokens
    ∧ (trimConversation st).total_output_tokens = st.total_output_tokens
    ∧ (trimConversation st).total_cost = st.total_cost
    ∧ (trimConversation st).last_input_tokens = st.last_input_tokens
    ∧ (trimConversation st).context_limit = st.context_limit
    ∧ (trimConversation st).model_name = st.model_name
    ∧ (trimConversation st).system_prompt = st.system_prompt
    ∧ (trimConversation st).max_tokens = st.max_tokens
    ∧ (trimConversation st).voice_mode = st.voice_mode := by
  unfold trimConversation
  split <;> simp




/-- C2 (counterexample): a non-empty two-turn conversation whose
last_input_tokens sits exactly at the 0.85 * contextLimit threshold is left
completely unchanged by the trim step, refuting "when it is at or above the
threshold trimming always occurs". -/
theorem trim_threshold_counterexample :
    17 * atThresholdTwoTurnState.context_limit
        ≤ 20 * atThresholdTwoTurnState.last_input_tokens
    ∧ atThresholdTwoTurnState.conversation ≠ []
    ∧ (trimConversation atThresholdTwoTurnState).conversation
        = atThresholdTwoTurnState.conversation :=
  ⟨by decide, by decide, by decide⟩

/-- C2 (amended): below the 0.85 * contextLimit threshold the trim step
leaves the turn sequence completely unchanged; at or above the threshold the
trim step changes the sequence if and only if the sequence is longer than the
precomputed 70% target, longer than two turns, and begins with a
user-then-assistant pair (so short or malformed histories are unchanged even
at or above the threshold). -/
theorem trim_trigger_amended (st : ChatState) :
    (20 * st.last_input_tokens < 17 * st.context_limit →
      (trimConversation st).conversation = st.conversation)
    ∧ (17 * st.context_limit ≤ 20 * st.last_input_tokens →
      ((trimConversation st).conversation ≠ st.conversation ↔
        (pyIntMul07 st.conversation.length < st.conversation.length
          ∧ 2 < st.conversation.length
          ∧ headIsPair st.conversation = true))) := by
  constructor
  · intro h
    simp [trimConversation, if_pos h]
  · intro h
    have hnot : ¬ (20 * st.last_input_tokens < 17 * st.context_limit) := by omega
    simp only [trimConversation, if_neg hnot]
    exact trimLoop_change_iff _ _

/-- Witness for trim_trigger_amended: the below-threshold arm at a fresh
four-turn session, and the at-threshold arm at the two-turn threshold
session. -/
theorem trim_trigger_amended_witness :
    (trimConversation belowThresholdState).conversation
        = belowThresholdState.conversation
    ∧ ((trimConversation atThresholdTwoTurnState).conversation
          ≠ atThresholdTwoTurnState.conversation ↔
        (pyIntMul07 atThresholdTwoTurnState.conversation.length
            < atThresholdTwoTurnState.conversation.length
          ∧ 2 < atThresholdTwoTurnState.conversation.length
          ∧ headIsPair atThresholdTwoTurnState.conversation = true)) :=
  ⟨(trim_trigger_amended belowThresholdState).1 (by decide),
   (trim_trigger_amended atThresholdTwoTurnState).2 (by decide)⟩


/-- C3 (counterexample): trimming a five-turn sequence (target
pyIntMul07 5 = 3) removes one pair and leaves three turns — an odd length,
refuting "the sequence resulting from trim has even length". -/
theorem trim_even_length_counterexample :
    17 * oddLengthTrimState.context_limit
        ≤ 20 * oddLengthTrimState.last_input_tokens
    ∧ (trimConversation oddLengthTrimState).conversation.length = 3
    ∧ (trimConversation oddLengthTrimState).conversation.length % 2 = 1 :=
  ⟨by decide, by decide, by decide⟩

/-- C3 (amended): the trim step preserves the parity of the sequence length
(so the result is even exactly when the previous length was even), never
lengthens the sequence (hence stays within max(2, previous length)), removes
only whole (user, assistant) pairs from the oldest end — the loop result is
the input with twice the removed-pair count dropped from the front — and
stops without error as soon as the two oldest entries are not a
user-then-assistant pair. -/
theorem trim_structure_amended (st : ChatState) (target : Nat) (l : List Turn) :
    (trimConversation st).conversation.length % 2 = st.conversation.length % 2
    ∧ (trimConversation st).conversation.length ≤ max 2 st.conversation.length
    ∧ (trimLoop target l).1 = l.drop (2 * (trimLoop target l).2)
    ∧ (∀ t1 t2 rest, l = t1 :: t2 :: rest →
        ¬ (t1.role = Role.user ∧ t2.role = Role.assistant) →
        trimLoop target l = (l, 0)) := by
  refine ⟨?_, ?_, trimLoop_fst_eq_drop target l, ?_⟩
  · unfold trimConversation
    split
    · rfl
    · have hle := trimLoop_two_mul_snd_le
        (pyIntMul07 st.conversation.length) st.conversation
      simp only [trimLoop_fst_eq_drop, List.length_drop]
      omega
  · unfold trimConversation
    split
    · exact le_max_right _ _
    · simp only [trimLoop_fst_eq_drop, List.length_drop]
      exact le_trans (Nat.sub_le _ _) (le_max_right _ _)
  · intro t1 t2 rest hl hroles
    subst hl
    apply trimLoop_stop
    intro hc
    have hpair := hc.2.2
    simp only [headIsPair, Bool.and_eq_true, decide_eq_true_eq] at hpair
    exact hroles hpair


/-- Witness for trim_structure_amended: the stop-on-malformed-pair clause at
a concrete four-turn history whose front pair is assistant-then-user. -/
theorem trim_structure_amended_witness :
    trimLoop 0 malformedFrontList = (malformedFrontList, 0) :=
  (trim_structure_amended initialState 0 malformedFrontList).2.2.2
    ⟨Role.assistant, "a"⟩ ⟨Role.user, "u"⟩
    [⟨Role.user, "u2"⟩, ⟨Role.assistant, "a2"⟩] (by rfl) (by decide)

/-- C1: when the remote exchange raises, send_message restores the exact
pre-call ledger: the just-appended user turn is removed, so the turn sequence
equals what it was just before the dispatch (the history left by the
independent pre-flight trim step — identical to the original history whenever
the trim threshold was not met), and none of lastInputTokens,
totalInputTokens, totalOutputTokens or totalCostUsd is changed by the failed
exchange. -/
theorem sendMessage_failure_rollback (st : ChatState) (userMsg : String)
    (apiMsg : Option String) (err : String) :
    (sendMessage st userMsg apiMsg (RemoteOutcome.failure err)).conversation
        = (trimConversation st).conversation
    ∧ (20 * st.last_input_tokens < 17 * st.context_limit →
        (sendMessage st userMsg apiMsg (RemoteOutcome.failure err)).conversation
          = st.conversation)
    ∧ (sendMessage st userMsg apiMsg (RemoteOutcome.failure err)).total_input_tokens
        = st.total_input_tokens
    ∧ (sendMessage st userMsg apiMsg (RemoteOutcome.failure err)).total_output_tokens
        = st.total_output_tokens
    ∧ (sendMessage st userMsg apiMsg (RemoteOutcome.failure err)).total_cost
        = st.total_cost
    ∧ (sendMessage st userMsg apiMsg (RemoteOutcome.failure err)).last_input_tokens
        = st.last_input_tokens := by
  have hframe := trimConversation_ledger st
  refine ⟨?_, ?_, ?_, ?_, ?_, ?_⟩
  · simp [sendMessage]
  · intro h
    simp [sendMessage, trimConversation, if_pos h]
  · simp [sendMessage, hframe.1]
  · simp [sendMessage, hframe.2.1]
  · simp [sendMessage, hframe.2.2.1]
  · simp [sendMessage, hframe.2.2.2.1]

/-- Witness for sendMessage_failure_rollback: a failed exchange on the fresh
session (below the trim threshold) leaves the empty history intact. -/
theorem sendMessage_failure_rollback_witness :
    (sendMessage initialState "hi" none (RemoteOutcome.failure "overloaded")).conversation
      = initialState.conversation :=
  (sendMessage_failure_rollback initialState "hi" none "overloaded").2.1 (by decide)

/-- C5: a successful exchange appends exactly one user turn and, after it,
exactly one assistant turn containing the full concatenation of the streamed
chunks; totalInputTokens grows by exactly the reported input_tokens,
totalOutputTokens by exactly the reported output_tokens, and
lastInputTokens is set to the reported input_tokens. -/
theorem sendMessage_success_ledger (st : ChatState) (userMsg : String)
    (apiMsg : Option String) (chunks : List String) (tin tout : Nat) :
    (sendMessage st userMsg apiMsg (RemoteOutcome.success chunks tin tout)).conversation
        = (trimConversation st).conversation
            ++ [⟨Role.user, userMsg⟩, ⟨Role.assistant, String.join chunks⟩]
    ∧ (sendMessage st userMsg apiMsg (RemoteOutcome.success chunks tin tout)).total_input_tokens
        = st.total_input_tokens + tin
    ∧ (sendMessage st userMsg apiMsg (RemoteOutcome.success chunks tin tout)).total_output_tokens
        = st.total_output_tokens + tout
    ∧ (sendMessage st userMsg apiMsg (RemoteOutcome.success chunks tin tout)).last_input_tokens
        = tin := by
  have hframe := trimConversation_ledger st
  refine ⟨?_, ?_, ?_, ?_⟩
  · simp [sendMessage]
  · simp [sendMessage, hframe.1]
  · simp [sendMessage, hframe.2.1]
  · simp [sendMessage]

/-- Every pricing entry, the fallback included, is non-negative. -/
theorem PRICING_nonneg (name : String) :
    0 ≤ (PRICING name).1 ∧ 0 ≤ (PRICING name).2 := by
  unfold PRICING
  split_ifs <;> constructor <;> norm_num

/-- send_message never changes the active model selection. -/
theorem sendMessage_model_name (st : ChatState) (userMsg : String)
    (apiMsg : Option String) (remote : RemoteOutcome) :
    (sendMessage st userMsg apiMsg remote).model_name = st.model_name := by
  have hframe := trimConversation_ledger st
  cases remote <;> simp [sendMessage, hframe.2.2.2.2.2.1]

/-- C6: a successful exchange adds to totalCostUsd exactly
(inputTokens/1e6) * inputPrice + (outputTokens/1e6) * outputPrice computed
from the pricing entry of the active model name; a model name absent from
the table resolves to the default entry (3.00, 15.00) instead of failing;
and two sequential successful exchanges accumulate linearly: the final
totalCostUsd is the starting total plus the sum of the two per-exchange
costs. -/
theorem cost_accounting :
    (∀ (st : ChatState) (userMsg : String) (apiMsg : Option String)
        (chunks : List String) (tin tout : Nat),
      (sendMessage st userMsg apiMsg (RemoteOutcome.success chunks tin tout)).total_cost
        = st.total_cost + exchangeCost st.model_name tin tout)
    ∧ (∀ name : String, name ≠ "Opus" → name ≠ "Sonnet" → name ≠ "Haiku" →
        PRICING name = (3, 15))
    ∧ (∀ (st : ChatState) (m1 m2 : String) (a1 a2 : Option String)
        (c1 c2 : List String) (i1 o1 i2 o2 : Nat),
      (sendMessage (sendMessage st m1 a1 (RemoteOutcome.success c1 i1 o1)) m2 a2
          (RemoteOutcome.success c2 i2 o2)).total_cost
        = st.total_cost + (exchangeCost st.model_name i1 o1
            + exchangeCost st.model_name i2 o2)) := by
  have hone : ∀ (st : ChatState) (userMsg : String) (apiMsg : Option String)
      (chunks : List String) (tin tout : Nat),
      (sendMessage st userMsg apiMsg (RemoteOutcome.success chunks tin tout)).total_cost
        = st.total_cost + exchangeCost st.model_name tin tout := by
    intro st userMsg apiMsg chunks tin tout
    have hframe := trimConversation_ledger st
    simp [sendMessage, exchangeCost, hframe.2.2.1, hframe.2.2.2.2.2.1, add_assoc]
  refine ⟨hone, ?_, ?_⟩
  · intro name h1 h2 h3
    simp [PRICING, h1, h2, h3]
  · intro st m1 m2 a1 a2 c1 c2 i1 o1 i2 o2
    rw [hone, hone, sendMessage_model_name]
    ring

/-- Witness for cost_accounting: the fallback arm at a model name that is not
in the pricing table. -/
theorem cost_accounting_witness : PRICING "GPT-4" = (3, 15) :=
  cost_accounting.2.1 "GPT-4" (by decide) (by decide) (by decide)



/-- C9 (counterexample): loading a saved session file replaces totalCostUsd
with the stored value — here a session holding 5 loads a file recording 1,
and the total strictly decreases, refuting "no operation available during a
session ever decreases it". -/
theorem totalCost_monotone_counterexample :
    (loadConversation richSessionState cheapSaveData).total_cost
      < richSessionState.total_cost := by
  simp only [loadConversation, richSessionState, cheapSaveData, initialState]
  rw [if_neg (by decide)]
  norm_num

/-- C9 (amended): totalCostUsd never decreases under exchanges (successful
ones add a non-negative cost, failed ones leave it unchanged) or under
clearing; loading a saved session file, however, replaces it wholesale with
the stored value (default 0), which may be smaller than the current total. -/
theorem totalCost_monotone_amended :
    (∀ (st : ChatState) (userMsg : String) (apiMsg : Option String)
        (remote : RemoteOutcome),
      st.total_cost ≤ (sendMessage st userMsg apiMsg remote).total_cost)
    ∧ (∀ st : ChatState, (clearConversation st).total_cost = st.total_cost)
    ∧ (∀ (st : ChatState) (data : SaveData),
        (loadConversation st data).total_cost = data.total_cost.getD 0) := by
  refine ⟨?_, ?_, ?_⟩
  · intro st userMsg apiMsg remote
    have hframe := trimConversation_ledger st
    cases remote with
    | failure e => simp [sendMessage, hframe.2.2.1]
    | success chunks tin tout =>
      have hp := PRICING_nonneg (trimConversation st).model_name
      have h1 : 0 ≤ (tin : Rat) / 1000000 * (PRICING (trimConversation st).model_name).1 :=
        mul_nonneg (by positivity) hp.1
      have h2 : 0 ≤ (tout : Rat) / 1000000 * (PRICING (trimConversation st).model_name).2 :=
        mul_nonneg (by positivity) hp.2
      simp only [sendMessage]
      rw [hframe.2.2.1]
      linarith [h1, h2]
  · intro st
    simp [clearConversation]
  · intro st data
    simp [loadConversation]
    split <;> simp

/-- findSub finds nothing exactly when the needle does not occur. -/
theorem findSub_eq_none_iff (needle : List Char) :
    ∀ hay : List Char, findSub needle hay = none ↔ occursIn needle hay = false
  | [] => by
    cases h : needle.isEmpty <;> simp [findSub, occursIn, h]
  | c :: rest => by
    by_cases hp : needle.isPrefixOf (c :: rest)
    · simp [findSub, occursIn, hp]
    · simp [findSub, occursIn, hp, findSub_eq_none_iff needle rest]

/-- Unfolding equation for the trigger loop on a non-empty trigger list. -/
theorem extractQueryAux_cons (message msgLower : List Char) (t : String)
    (ts : List String) :
    extractQueryAux message msgLower (t :: ts)
      = match findSub t.data msgLower with
        | none => extractQueryAux message msgLower ts
        | some i =>
          if (stripQuery (message.drop (i + t.data.length))).isEmpty
          then extractQueryAux message msgLower ts
          else String.mk (stripQuery (message.drop (i + t.data.length))) := by
  rfl

/-- When no trigger occurs in the lowered message, the trigger loop falls
through to the whole original message. -/
theorem extractQueryAux_no_match (message msgLower : List Char)
    (ts : List String) (h : ∀ t ∈ ts, occursIn t.data msgLower = false) :
    extractQueryAux message msgLower ts = String.mk message := by
  induction ts with
  | nil => rfl
  | cons t ts ih =>
    have ht : findSub t.data msgLower = none :=
      (findSub_eq_none_iff t.data msgLower).mpr (h t (by simp))
    simp only [extractQueryAux_cons, ht]
    exact ih fun t' ht' => h t' (by simp [ht'])

/-- The trigger loop either falls through to the whole message, or returns
the stripped non-empty remainder after the first occurrence of some trigger
of the list. -/
theorem extractQueryAux_spec (message msgLower : List Char) (ts : List String) :
    extractQueryAux message msgLower ts = String.mk message
    ∨ ∃ t ∈ ts, ∃ i, findSub t.data msgLower = some i
        ∧ extractQueryAux message msgLower ts
            = String.mk (stripQuery (message.drop (i + t.data.length)))
        ∧ stripQuery (message.drop (i + t.data.length)) ≠ [] := by
  induction ts with
  | nil => exact Or.inl rfl
  | cons t ts ih =>
    cases hf : findSub t.data msgLower with
    | none =>
      simp only [extractQueryAux_cons, hf]
      rcases ih with h | ⟨t', ht', i, hi, heq, hne⟩
      · exact Or.inl h
      · exact Or.inr ⟨t', by simp [ht'], i, hi, heq, hne⟩
    | some i =>
      simp only [extractQueryAux_cons, hf]
      by_cases hq : (stripQuery (message.drop (i + t.data.length))).isEmpty
      · rw [if_pos hq]
        rcases ih with h | ⟨t', ht', j, hj, heq, hne⟩
        · exact Or.inl h
        · exact Or.inr ⟨t', by simp [ht'], j, hj, heq, hne⟩
      · rw [if_neg hq]
        refine Or.inr ⟨t, by simp, i, hf, rfl, ?_⟩
        simpa [List.isEmpty_iff] using hq

/-- A skipped trigger (absent, or stripped remainder empty) leaves the scan
result unchanged: the loop moves on to the remaining triggers. -/
theorem extractQueryAux_skip (message msgLower : List Char) (t : String)
    (ts : List String) (h : triggerSkipped message msgLower t = true) :
    extractQueryAux message msgLower (t :: ts)
      = extractQueryAux message msgLower ts := by
  unfold triggerSkipped at h
  cases hf : findSub t.data msgLower with
  | none => simp only [extractQueryAux_cons, hf]
  | some j =>
    simp only [hf] at h
    simp only [extractQueryAux_cons, hf]
    rw [if_pos h]

/-- When every trigger of the list is skipped, the scan falls through to the
whole original message. -/
theorem extractQueryAux_all_skip (message msgLower : List Char)
    (ts : List String) (h : ∀ t ∈ ts, triggerSkipped message msgLower t = true) :
    extractQueryAux message msgLower ts = String.mk message := by
  induction ts with
  | nil => rfl
  | cons t ts ih =>
    rw [extractQueryAux_skip message msgLower t ts (h t (by simp))]
    exact ih fun t' ht' => h t' (by simp [ht'])

/-- A trigger that occurs with a non-empty stripped remainder ends the scan
at once with that remainder. -/
theorem extractQueryAux_hit (message msgLower : List Char) (t : String)
    (ts : List String) (i : Nat) (hf : findSub t.data msgLower = some i)
    (hne : stripQuery (message.drop (i + t.data.length)) ≠ []) :
    extractQueryAux message msgLower (t :: ts)
      = String.mk (stripQuery (message.drop (i + t.data.length))) := by
  simp only [extractQueryAux_cons, hf]
  rw [if_neg]
  simpa [List.isEmpty_iff] using hne

/-- First-in-list-order selection, stated over any split of the trigger
list: when every trigger before t is skipped and t occurs with a non-empty
stripped remainder, the scan returns exactly the remainder of t. -/
theorem extractQueryAux_first (message msgLower : List Char) :
    ∀ (pre post : List String) (t : String) (i : Nat),
      (∀ p ∈ pre, triggerSkipped message msgLower p = true) →
      findSub t.data msgLower = some i →
      stripQuery (message.drop (i + t.data.length)) ≠ [] →
      extractQueryAux message msgLower (pre ++ t :: post)
        = String.mk (stripQuery (message.drop (i + t.data.length)))
  | [], post, t, i, _, hf, hne => by
    simpa using extractQueryAux_hit message msgLower t post i hf hne
  | p :: pre, post, t, i, hpre, hf, hne => by
    rw [List.cons_append,
      extractQueryAux_skip message msgLower p (pre ++ t :: post) (hpre p (by simp))]
    exact extractQueryAux_first message msgLower pre post t i
      (fun p' hp' => hpre p' (by simp [hp'])) hf hne

/-- C7: hasSearchIntent is true iff some phrase of the fixed trigger list
occurs as a case-insensitive substring of the message (i.e. occurs in the
lowercased message — every trigger is already lower-case); in particular it
is true for "search for rust ownership" and false for "hello, how are
you". -/
theorem hasSearchIntent_spec :
    (∀ message : String,
      hasSearchIntent message = true ↔
        ∃ t ∈ SEARCH_TRIGGERS, occursIn t.data (pyLower message).data = true)
    ∧ hasSearchIntent "search for rust ownership" = true
    ∧ hasSearchIntent "hello, how are you" = false := by
  refine ⟨?_, by decide, by decide⟩
  intro message
  simp [hasSearchIntent, List.any_eq_true]

/-- C8 (counterexample): on the message "search for" the first trigger
matches at position 0 and the remainder after it strips to the empty string,
so the claimed return value is ""; the code instead skips the trigger
(`if query:` fails) and falls back to the whole message, returning
"search for". -/
theorem extractQuery_counterexample :
    findSub ("search for" : String).data (pyLower "search for").data = some 0
    ∧ stripQuery (("search for" : String).data.drop
        (0 + ("search for" : String).data.length)) = []
    ∧ extractQuery "search for" = "search for"
    ∧ ("search for" : String) ≠ "" :=
  ⟨by decide, by decide, by decide, by decide⟩

/-- C8 (amended): extractQuery returns the quote-and-whitespace-stripped
remainder of the message after the first occurrence of the first trigger —
first by trigger-list order, not by position in the text — whose stripped
remainder is non-empty; a matching trigger whose remainder strips to empty
is skipped, and when no trigger matches (or the remainder of every
matching trigger strips to empty) the whole message is returned unchanged.
Universally: for every message, if every trigger strictly before t in the
list is skipped and t occurs with a non-empty stripped remainder, the result
is exactly the remainder of t; if every trigger of the list is skipped, the
result is the whole message.  In particular "search for rust ownership"
yields "rust ownership", and "google search for cats" yields "cats"
(trigger "search for" precedes "google" in the list even though "google"
occurs earlier in the text). -/
theorem extractQuery_amended :
    extractQuery "search for rust ownership" = "rust ownership"
    ∧ extractQuery "google search for cats" = "cats"
    ∧ (∀ message : String,
        (∀ t ∈ SEARCH_TRIGGERS, occursIn t.data (pyLower message).data = false) →
        extractQuery message = message)
    ∧ (∀ message : String,
        (∀ t ∈ SEARCH_TRIGGERS,
          triggerSkipped message.data (pyLower message).data t = true) →
        extractQuery message = message)
    ∧ (∀ (message : String) (pre post : List String) (t : String) (i : Nat),
        SEARCH_TRIGGERS = pre ++ t :: post →
        (∀ p ∈ pre, triggerSkipped message.data (pyLower message).data p = true) →
        findSub t.data (pyLower message).data = some i →
        stripQuery (message.data.drop (i + t.data.length)) ≠ [] →
        extractQuery message
          = String.mk (stripQuery (message.data.drop (i + t.data.length))))
    ∧ (∀ message : String,
        extractQuery message = message
        ∨ ∃ t ∈ SEARCH_TRIGGERS, ∃ i,
            findSub t.data (pyLower message).data = some i
            ∧ extractQuery message
                = String.mk (stripQuery (message.data.drop (i + t.data.length)))
            ∧ extractQuery message ≠ "") := by
  refine ⟨by decide, by decide, ?_, ?_, ?_, ?_⟩
  · intro message h
    exact extractQueryAux_no_match message.data (pyLower message).data SEARCH_TRIGGERS h
  · intro message h
    exact extractQueryAux_all_skip message.data (pyLower message).data SEARCH_TRIGGERS h
  · intro message pre post t i hsplit hpre hf hne
    show extractQueryAux message.data (pyLower message).data SEARCH_TRIGGERS = _
    rw [hsplit]
    exact extractQueryAux_first message.data (pyLower message).data pre post t i
      hpre hf hne
  · intro message
    rcases extractQueryAux_spec message.data (pyLower message).data SEARCH_TRIGGERS
      with h | ⟨t, ht, i, hi, heq, hne⟩
    · exact Or.inl h
    · refine Or.inr ⟨t, ht, i, hi, heq, ?_⟩
      show extractQueryAux message.data (pyLower message).data SEARCH_TRIGGERS ≠ ""
      rw [heq]
      intro hc
      exact hne (by simpa using congrArg String.data hc)

/-- Witness for extractQuery_amended: a message containing no trigger is
returned unchanged; a message whose only matching trigger ("web search",
sitting at the very end) has an empty remainder falls through to the whole
message; and "latest news about google" — where the earlier-in-list trigger
"google" matches but its remainder strips to empty — selects the first
qualifying trigger "latest news" and returns "about google". -/
theorem extractQuery_amended_witness :
    extractQuery "good morning" = "good morning"
    ∧ extractQuery "this is a web search" = "this is a web search"
    ∧ extractQuery "latest news about google" = "about google" :=
  ⟨extractQuery_amended.2.2.1 "good morning" (by decide),
   extractQuery_amended.2.2.2.1 "this is a web search" (by decide),
   Eq.trans
     (extractQuery_amended.2.2.2.2.1 "latest news about google"
       ["search for", "search about", "look up", "google", "find online",
        "what" ++ apostropheChar.toString ++ "s the latest"]
       ["current price", "weather in", "search the web", "look online",
        "web search"]
       "latest news" 0 (by decide) (by decide) (by decide) (by decide))
     (by decide)⟩

/-- C4 (counterexample): with an empty visible (clean) message and resolved
file context, the composition of handle_input stores the raw input
"@file a.txt" — not the placeholder "Explain this code." — while the
outbound request does contain the context followed by the placeholder. -/
theorem compose_placeholder_counterexample :
    (handleFileInput "@file a.txt" "" "FILE CONTEXT").1 = "@file a.txt"
    ∧ (handleFileInput "@file a.txt" "" "FILE CONTEXT").1 ≠ "Explain this code."
    ∧ (handleFileInput "@file a.txt" "" "FILE CONTEXT").2
        = "FILE CONTEXT" ++ "\n\n---\n\n" ++ "Explain this code." :=
  ⟨by decide, by decide, by decide⟩

/-- C4 (amended): when the visible user message is empty but side-channel
file context exists, the outbound request message contains both the file
context and the placeholder "Explain this code.", and the message stored in
history is the raw (non-empty) original input, not the placeholder. -/
theorem compose_placeholder_amended (userMsg fileContext : String)
    (h : userMsg ≠ "") :
    (handleFileInput userMsg "" fileContext).1 = userMsg
    ∧ (handleFileInput userMsg "" fileContext).1 ≠ ""
    ∧ (handleFileInput userMsg "" fileContext).2
        = fileContext ++ "\n\n---\n\n" ++ "Explain this code." := by
  refine ⟨rfl, ?_, rfl⟩
  simpa [handleFileInput] using h

/-- Witness for compose_placeholder_amended: a concrete bare @file input. -/
theorem compose_placeholder_amended_witness :
    (handleFileInput "@file b.py" "" "CTX").1 = "@file b.py"
    ∧ (handleFileInput "@file b.py" "" "CTX").1 ≠ ""
    ∧ (handleFileInput "@file b.py" "" "CTX").2
        = "CTX" ++ "\n\n---\n\n" ++ "Explain this code." :=
  compose_placeholder_amended "@file b.py" "CTX" (by decide)

/-- C10: clearing the conversation empties only the turn history; the token
totals, the accumulated cost, the last input-token count (which keeps
driving the trim-trigger comparison unchanged), the context limit, and the
model, persona and response-depth settings all keep their previous
values. -/
theorem clearConversation_frame (st : ChatState) :
    (clearConversation st).conversation = []
    ∧ (clearConversation st).total_input_tokens = st.total_input_tokens
    ∧ (clearConversation st).total_output_tokens = st.total_output_tokens
    ∧ (clearConversation st).total_cost = st.total_cost
    ∧ (clearConversation st).last_input_tokens = st.last_input_tokens
    ∧ (clearConversation st).context_limit = st.context_limit
    ∧ (clearConversation st).model_name = st.model_name
    ∧ (clearConversation st).system_prompt = st.system_prompt
    ∧ (clearConversation st).max_tokens = st.max_tokens := by
  simp [clearConversation]
